import Mathlib

/-!
Verification of the quantized fully-connected operator lifecycle of
`src/fully-connected.c` (creation and runtime binding of a Q8 fully
connected operator).

The float computations of the source (`float` scale validation with
`isnormal`, and the fused requantization scale
`input_scale * kernel_scale / output_scale`) are modelled by an exact
IEEE-754 binary32 embedding: a float is a bit pattern (sign, biased
exponent, fraction), and multiplication / division are implemented by
exact integer arithmetic followed by round-to-nearest-even, including
gradual underflow to subnormals / zero and overflow to infinity.
-/

/-- IEEE-754 binary32 value as its bit fields: `biasedExp = 0` encodes zero
and subnormals, `biasedExp = 255` encodes infinities (`frac = 0`) and NaNs
(`frac ≠ 0`), and `1 ≤ biasedExp ≤ 254` encodes normal numbers with value
`(2^23 + frac) * 2^(biasedExp - 150)`. -/
structure Fp32 where
  sign : Bool
  biasedExp : ℕ
  frac : ℕ
deriving DecidableEq, Repr

/-- Well-formed bit pattern: the fields fit in 8 and 23 bits. -/
def Fp32.wf (a : Fp32) : Prop := a.biasedExp ≤ 255 ∧ a.frac < 2 ^ 23

def Fp32.isNaN (a : Fp32) : Bool := decide (a.biasedExp = 255 ∧ a.frac ≠ 0)

def Fp32.isInf (a : Fp32) : Bool := decide (a.biasedExp = 255 ∧ a.frac = 0)

/-- C99 `isnormal` for binary32: neither zero, subnormal, infinite nor NaN. -/
def Fp32.isNormal (a : Fp32) : Bool := decide (1 ≤ a.biasedExp ∧ a.biasedExp ≤ 254)

/-- Integer significand of a finite value (`frac` for subnormals/zero,
`2^23 + frac` for normals; junk for `biasedExp = 255`). -/
def Fp32.sig (a : Fp32) : ℕ := if a.biasedExp = 0 then a.frac else 2 ^ 23 + a.frac

/-- Exponent of the least significand bit of a finite value. -/
def Fp32.expVal (a : Fp32) : ℤ := if a.biasedExp = 0 then -149 else (a.biasedExp : ℤ) - 150

/-- Exact value of a finite float, scaled by `2^149` (so it is an integer:
the least representable positive value `2^-149` maps to `1`). -/
def Fp32.scaledVal (a : Fp32) : ℤ :=
  (if a.sign then -1 else 1) * ((a.sig * 2 ^ (a.expVal + 149).toNat : ℕ) : ℤ)

/-- Exact rational value of a finite float. -/
def Fp32.toRat (a : Fp32) : ℚ := (a.scaledVal : ℚ) / 2 ^ 149

/-- Value used for IEEE comparisons, extended with sentinels for the two
infinities; every finite binary32 value scaled by `2^149` is below `2^400`
in magnitude, so the sentinels compare correctly. -/
def Fp32.extScaled (a : Fp32) : ℤ :=
  if a.biasedExp = 255 then (if a.sign then -(2 ^ 400) else 2 ^ 400) else a.scaledVal

/-- IEEE `<=` on binary32: false whenever an operand is NaN. -/
def fle (a b : Fp32) : Bool := !a.isNaN && !b.isNaN && decide (a.extScaled ≤ b.extScaled)

/-- IEEE `<` on binary32: false whenever an operand is NaN. -/
def flt (a b : Fp32) : Bool := !a.isNaN && !b.isNaN && decide (a.extScaled < b.extScaled)

/-- IEEE `>=` on binary32. -/
def fge (a b : Fp32) : Bool := fle b a

def fp0 : Fp32 := ⟨false, 0, 0⟩

def fp1 : Fp32 := ⟨false, 127, 0⟩

def fpNaN : Fp32 := ⟨false, 255, 1⟩

def fpInf (s : Bool) : Fp32 := ⟨s, 255, 0⟩

def fpZero (s : Bool) : Fp32 := ⟨s, 0, 0⟩

/-- Fuelled floor of the base-2 logarithm (fuel 400 covers every integer
arising in binary32 arithmetic below). -/
def log2fuel : ℕ → ℕ → ℕ
  | 0, _ => 0
  | f + 1, n => if n ≤ 1 then 0 else log2fuel f (n / 2) + 1

def natLog2 (n : ℕ) : ℕ := log2fuel 400 n

/-- Round `m / 2^s` to the nearest integer, ties to even. -/
def roundShift (m s : ℕ) : ℕ :=
  let q := m / 2 ^ s
  let r := m % 2 ^ s
  let half := 2 ^ (s - 1)
  if half < r then q + 1
  else if r < half then q
  else if q % 2 = 0 then q else q + 1

/-- Round the positive value `m * 2^e` to binary32 precision: returns the
canonical pair `(significand, exponent)` with either the exponent `-149`
(subnormal range, significand `< 2^24`) or a significand in
`[2^23, 2^24)`. Ties to even, gradual underflow. -/
def roundPos (m : ℕ) (e : ℤ) : ℕ × ℤ :=
  if m = 0 then (0, -149)
  else
    let et : ℤ := max (e + (natLog2 m : ℤ) - 23) (-149)
    let m1 : ℕ := if e < et then roundShift m (et - e).toNat else m * 2 ^ ((e - et).toNat)
    if m1 = 2 ^ 24 then (2 ^ 23, et + 1) else (m1, et)

/-- Encode a canonical rounded pair as a bit pattern (zero / subnormal when
the significand is below `2^23`, else a normal number). -/
def mkFinite (s : Bool) (m : ℕ) (et : ℤ) : Fp32 :=
  if m < 2 ^ 23 then ⟨s, 0, m⟩ else ⟨s, (et + 150).toNat, m - 2 ^ 23⟩

/-- Round a signed exact value `± m * 2^e` to binary32, overflowing to the
signed infinity when the result exceeds the largest finite value. -/
def roundToFp32 (s : Bool) (m : ℕ) (e : ℤ) : Fp32 :=
  let p := roundPos m e
  if 104 < p.2 then fpInf s else mkFinite s p.1 p.2

/-- IEEE binary32 multiplication, round to nearest even. -/
def fmul (a b : Fp32) : Fp32 :=
  let s := xor a.sign b.sign
  if a.isNaN || b.isNaN then fpNaN
  else if a.isInf then (if b.sig = 0 then fpNaN else fpInf s)
  else if b.isInf then (if a.sig = 0 then fpNaN else fpInf s)
  else roundToFp32 s (a.sig * b.sig) (a.expVal + b.expVal)

/-- IEEE binary32 division, round to nearest even. The quotient is computed
with 48 extra bits plus a sticky bit, which determines rounding exactly. -/
def fdiv (a b : Fp32) : Fp32 :=
  let s := xor a.sign b.sign
  if a.isNaN || b.isNaN then fpNaN
  else if a.isInf then (if b.isInf then fpNaN else fpInf s)
  else if b.isInf then fpZero s
  else if b.sig = 0 then (if a.sig = 0 then fpNaN else fpInf s)
  else if a.sig = 0 then fpZero s
  else
    let q := a.sig * 2 ^ 48 / b.sig
    let r := a.sig * 2 ^ 48 % b.sig
    roundToFp32 s (2 * q + (if r = 0 then 0 else 1)) (a.expVal - b.expVal - 49)

/-- Return codes of `enum qnnp_status` (the members used by this file). -/
inductive QnnpStatus
  | success
  | uninitialized
  | invalid_parameter
  | unsupported_parameter
  | out_of_memory
deriving DecidableEq, Repr

/-- Operator data format tag; creation uses `qnnp_format_quint8`. -/
inductive QnnpFormat
  | quint8
  | float32
deriving DecidableEq, Repr

/-- Modelled from the spec: the capability flag marking a matrix-multiply
only (non-convolutional) configuration; the header declaring
`QNNP_CONVOLUTION_FLAG_GEMM` is not among the sources, only its use. -/
def QNNP_CONVOLUTION_FLAG_GEMM : ℕ := 1

/-- The global context consumed by the core: the readiness flag
`qnnp_params.initialized` and the tile geometry `qnnp_params.q8conv.nr`
(tile width) and `qnnp_params.q8conv.kr` (tile depth). -/
structure QnnpParams where
  initialized : Bool
  nr : ℕ
  kr : ℕ

/-- Modelled from the spec: `qnnp_compute_conv_quantization_params` lives in
`include/qnnpack/requantization.h`, which is not among the sources here;
per the spec it bundles the fused requantization scale together with the
zero points and the output clamp bounds into an immutable record. -/
structure ConvQuantizationParams where
  input_zero_point : ℕ
  kernel_zero_point : ℕ
  requantization_scale : Fp32
  output_zero_point : ℕ
  output_min : ℕ
  output_max : ℕ
deriving DecidableEq, Repr

def qnnp_compute_conv_quantization_params
    (input_zero_point kernel_zero_point : ℕ) (requantization_scale : Fp32)
    (output_zero_point output_min output_max : ℕ) : ConvQuantizationParams :=
  ⟨input_zero_point, kernel_zero_point, requantization_scale,
   output_zero_point, output_min, output_max⟩

/-- The packed weight buffer: its stride geometry, its allocation size in
bytes, and the byte stored at each weight cell `(output row, input col)`
of the tiled layout (per-tile bias slots are disjoint from the weight
cells and are not modelled; no claim depends on bias values). -/
structure PackedKernel where
  n_stride : ℕ
  k_stride : ℕ
  size : ℕ
  cell : ℕ → ℕ → ℕ

/-- Modelled from the spec: `pack_q8gemm_w` lives in
`include/qnnpack/pack.h`, which is not among the sources here. Per the
layout contract (spec section 4.3) it writes the true
`output_channels × input_channels` weight cells (and the per-tile bias
slots, not modelled) into the tiled buffer and leaves every other weight
cell of the buffer untouched, so padding keeps the value the buffer held
before packing. -/
def pack_q8gemm_w (nc kc : ℕ) (kernel : ℕ → ℕ) (buf : ℕ → ℕ → ℕ) : ℕ → ℕ → ℕ :=
  fun i j => if i < nc ∧ j < kc then kernel (i * kc + j) else buf i j

/-- The fields of `struct qnnp_operator` referenced by the source file.
Buffers are modelled by numeric references (addresses). -/
structure QnnpOperator where
  packed_kernel : PackedKernel
  groups : ℕ
  group_input_channels : ℕ
  group_output_channels : ℕ
  input_zero_point : ℕ
  kernel_zero_point : ℕ
  conv_quantization_params : ConvQuantizationParams
  format : QnnpFormat
  flags : ℕ
  batch_size : ℕ
  input_height : ℕ
  input_width : ℕ
  input : ℕ
  input_pixel_stride : ℕ
  output_height : ℕ
  output_width : ℕ
  output : ℕ
  output_pixel_stride : ℕ

/-- Which scale the creation diagnostic names when validation fails. -/
inductive ScaleKind
  | input
  | kernel
  | output
deriving DecidableEq, Repr

/-- Observable outcome of `qnnp_create_fully_connected_nc_q8`: the returned
status, what was stored through `*fully_connected_out` (`none` when the
function never writes it), how many of its own allocations are still live
on return (the error path frees everything via `qnnp_delete_operator`),
and which scale the error diagnostic named, if any. -/
structure CreateResult where
  status : QnnpStatus
  fully_connected_out : Option QnnpOperator
  live_allocations : ℕ
  failed_scale : Option ScaleKind

/-- Translation of `qnnp_create_fully_connected_nc_q8`
(`src/fully-connected.c`, lines 30-134). The two allocation outcomes
(`calloc` of the operator record, `malloc` of the packed buffer) are
inputs of the model. `n_stride`/`k_stride` reproduce the exact
`(x + (nr - 1)) & -nr` arithmetic: the sum is `size_t` (mod `2^64`), the
negation is `uint32_t` (mod `2^32`); the `malloc` argument
`n_stride * (k_stride * sizeof(uint8_t) + sizeof(int32_t))` is likewise
`size_t` arithmetic, so the size field is reduced mod `2^64`. The
`memset` of the packed buffer with `kernel_zero_point` is the initial
buffer handed to `pack_q8gemm_w`. -/
def qnnp_create_fully_connected_nc_q8
    (params : QnnpParams) (operator_alloc_ok packed_alloc_ok : Bool)
    (input_channels output_channels : ℕ)
    (input_zero_point : ℕ) (input_scale : Fp32)
    (kernel_zero_point : ℕ) (kernel_scale : Fp32)
    (kernel : ℕ → ℕ) (bias : ℕ → ℤ)
    (output_zero_point : ℕ) (output_scale : Fp32)
    (output_min output_max : ℕ) : CreateResult :=
  if !params.initialized then
    { status := .uninitialized, fully_connected_out := none,
      live_allocations := 0, failed_scale := none }
  else if fle input_scale fp0 || !input_scale.isNormal then
    { status := .invalid_parameter, fully_connected_out := none,
      live_allocations := 0, failed_scale := some .input }
  else if fle kernel_scale fp0 || !kernel_scale.isNormal then
    { status := .invalid_parameter, fully_connected_out := none,
      live_allocations := 0, failed_scale := some .kernel }
  else if fle output_scale fp0 || !output_scale.isNormal then
    { status := .invalid_parameter, fully_connected_out := none,
      live_allocations := 0, failed_scale := some .output }
  else if fge (fdiv (fmul input_scale kernel_scale) output_scale) fp1 then
    { status := .unsupported_parameter, fully_connected_out := none,
      live_allocations := 0, failed_scale := none }
  else if !operator_alloc_ok then
    { status := .out_of_memory, fully_connected_out := none,
      live_allocations := 0, failed_scale := none }
  else if !packed_alloc_ok then
    { status := .out_of_memory, fully_connected_out := none,
      live_allocations := 0, failed_scale := none }
  else
    { status := .success,
      fully_connected_out := some
        { packed_kernel :=
            { n_stride := ((output_channels + (params.nr - 1)) % 2 ^ 64) &&&
                ((2 ^ 32 - params.nr) % 2 ^ 32),
              k_stride := ((input_channels + (params.kr - 1)) % 2 ^ 64) &&&
                ((2 ^ 32 - params.kr) % 2 ^ 32),
              size := ((((output_channels + (params.nr - 1)) % 2 ^ 64) &&&
                  ((2 ^ 32 - params.nr) % 2 ^ 32)) *
                ((((input_channels + (params.kr - 1)) % 2 ^ 64) &&&
                  ((2 ^ 32 - params.kr) % 2 ^ 32)) * 1 + 4)) % 2 ^ 64,
              cell := pack_q8gemm_w output_channels input_channels kernel
                (fun _ _ => kernel_zero_point) },
          groups := 1,
          group_input_channels := input_channels,
          group_output_channels := output_channels,
          input_zero_point := input_zero_point,
          kernel_zero_point := kernel_zero_point,
          conv_quantization_params := qnnp_compute_conv_quantization_params
            input_zero_point kernel_zero_point
            (fdiv (fmul input_scale kernel_scale) output_scale)
            output_zero_point output_min output_max,
          format := .quint8,
          flags := QNNP_CONVOLUTION_FLAG_GEMM,
          batch_size := 0, input_height := 0, input_width := 0,
          input := 0, input_pixel_stride := 0,
          output_height := 0, output_width := 0,
          output := 0, output_pixel_stride := 0 },
      live_allocations := 2,
      failed_scale := none }

/-- Translation of `qnnp_setup_fully_connected_nc_q8`
(`src/fully-connected.c`, lines 136-167): returns the status and the
operator state after the call (unchanged on failure). -/
def qnnp_setup_fully_connected_nc_q8
    (params : QnnpParams) (convolution : QnnpOperator)
    (batch_size : ℕ) (input : ℕ) (input_stride : ℕ)
    (output : ℕ) (output_stride : ℕ) (threadpool : ℕ) :
    QnnpStatus × QnnpOperator :=
  if !params.initialized then (.uninitialized, convolution)
  else if batch_size = 0 then (.invalid_parameter, convolution)
  else (.success,
    { convolution with
      batch_size := 1,
      input_height := batch_size,
      input_width := 1,
      input := input,
      input_pixel_stride := input_stride,
      output_height := batch_size,
      output_width := 1,
      output := output,
      output_pixel_stride := output_stride })

/-- A scale that is positive, finite and normal (the spec's valid domain). -/
def isPosNormal (a : Fp32) : Bool := !a.sign && a.isNormal

/-- A scale of one of the classes the claims call invalid: zero, negative,
subnormal, NaN or infinite. -/
def isInvalidScale (a : Fp32) : Bool :=
  decide (a.biasedExp = 0 ∧ a.frac = 0) || a.sign ||
    decide (a.biasedExp = 0 ∧ a.frac ≠ 0) || a.isNaN || a.isInf

/-- Round `n` up to a multiple of `w` (the spec's packed-size formula). -/
def roundUpMul (w n : ℕ) : ℕ := w * ((n + (w - 1)) / w)

/-- Modelled from the spec (sections 4.4 and 7): the status Create must
return, decided at the first violated precondition in order - global
readiness, the three scale validations, the fused-scale bound, then the
two allocations. -/
def specExpectedCreateStatus (params : QnnpParams)
    (operator_alloc_ok packed_alloc_ok : Bool)
    (input_scale kernel_scale output_scale : Fp32) : QnnpStatus :=
  if !params.initialized then .uninitialized
  else if isInvalidScale input_scale then .invalid_parameter
  else if isInvalidScale kernel_scale then .invalid_parameter
  else if isInvalidScale output_scale then .invalid_parameter
  else if fge (fdiv (fmul input_scale kernel_scale) output_scale) fp1 then .unsupported_parameter
  else if !operator_alloc_ok then .out_of_memory
  else if !packed_alloc_ok then .out_of_memory
  else .success

/-- The transient fields a successful Bind writes (spec section 4.6)
together with the frame of fields it must not touch: `op` is the operator
before the call, `op2` after. -/
def setupWrites (op op2 : QnnpOperator)
    (batch_size input input_stride output output_stride : ℕ) : Prop :=
  op2.batch_size = 1 ∧
  op2.input_height = batch_size ∧
  op2.input_width = 1 ∧
  op2.input = input ∧
  op2.input_pixel_stride = input_stride ∧
  op2.output_height = batch_size ∧
  op2.output_width = 1 ∧
  op2.output = output ∧
  op2.output_pixel_stride = output_stride ∧
  op2.packed_kernel = op.packed_kernel ∧
  op2.conv_quantization_params = op.conv_quantization_params ∧
  op2.groups = op.groups ∧
  op2.group_input_channels = op.group_input_channels ∧
  op2.group_output_channels = op.group_output_channels ∧
  op2.input_zero_point = op.input_zero_point ∧
  op2.kernel_zero_point = op.kernel_zero_point ∧
  op2.format = op.format ∧
  op2.flags = op.flags

/-- A sample operator state used to instantiate the Bind theorems. -/
def sampleOp : QnnpOperator :=
  { packed_kernel := { n_stride := 8, k_stride := 8, size := 96, cell := fun _ _ => 0 },
    groups := 1,
    group_input_channels := 3,
    group_output_channels := 5,
    input_zero_point := 1,
    kernel_zero_point := 128,
    conv_quantization_params := ⟨1, 128, fp1, 2, 0, 255⟩,
    format := .quint8,
    flags := QNNP_CONVOLUTION_FLAG_GEMM,
    batch_size := 0, input_height := 0, input_width := 0,
    input := 0, input_pixel_stride := 0,
    output_height := 0, output_width := 0,
    output := 0, output_pixel_stride := 0 }

theorem extScaled_fp0 : fp0.extScaled = 0 := by decide

set_option maxRecDepth 4000 in
theorem extScaled_fp1 : fp1.extScaled = 2 ^ 149 := by decide

theorem extScaled_eq_scaledVal (a : Fp32) (h : a.biasedExp ≠ 255) :
    a.extScaled = a.scaledVal := by
  simp [Fp32.extScaled, h]

theorem scaledVal_nonneg (a : Fp32) (h : a.sign = false) : 0 ≤ a.scaledVal := by
  simp [Fp32.scaledVal, h]

theorem scaledVal_nonpos (a : Fp32) (h : a.sign = true) : a.scaledVal ≤ 0 := by
  simp [Fp32.scaledVal, h]

theorem scaledVal_pos (a : Fp32) (hn : a.isNormal = true) (hs : a.sign = false) :
    0 < a.scaledVal := by
  simp only [Fp32.isNormal, decide_eq_true_eq] at hn
  have hbe : a.biasedExp ≠ 0 := by omega
  simp only [Fp32.scaledVal, Fp32.sig, hs, hbe, if_false, Bool.false_eq_true, one_mul]
  have : 0 < (2 ^ 23 + a.frac) * 2 ^ (a.expVal + 149).toNat := by positivity
  exact_mod_cast this

theorem isNaN_false_of_isNormal (a : Fp32) (hn : a.isNormal = true) : a.isNaN = false := by
  simp only [Fp32.isNormal, decide_eq_true_eq] at hn
  simp only [Fp32.isNaN, decide_eq_false_iff_not]
  rintro ⟨h, -⟩
  omega

theorem isInf_false_of_isNormal (a : Fp32) (hn : a.isNormal = true) : a.isInf = false := by
  simp only [Fp32.isNormal, decide_eq_true_eq] at hn
  simp only [Fp32.isInf, decide_eq_false_iff_not]
  rintro ⟨h, -⟩
  omega

theorem sig_ne_zero_of_isNormal (a : Fp32) (hn : a.isNormal = true) : a.sig ≠ 0 := by
  simp only [Fp32.isNormal, decide_eq_true_eq] at hn
  have hbe : a.biasedExp ≠ 0 := by omega
  simp only [Fp32.sig, hbe, if_false]
  have : (0:ℕ) < 2 ^ 23 := by norm_num
  omega

theorem check_false_of_posNormal (a : Fp32) (h : isPosNormal a = true) :
    (fle a fp0 || !a.isNormal) = false := by
  simp only [isPosNormal, Bool.and_eq_true, Bool.not_eq_true'] at h
  obtain ⟨hs, hn⟩ := h
  have hbe : a.biasedExp ≠ 255 := by
    simp only [Fp32.isNormal, decide_eq_true_eq] at hn
    omega
  have hpos := scaledVal_pos a hn hs
  have hnle : ¬ (a.extScaled ≤ fp0.extScaled) := by
    rw [extScaled_eq_scaledVal a hbe, extScaled_fp0]
    omega
  have hfle : fle a fp0 = false := by simp [fle, hnle]
  simp [hfle, hn]

theorem check_true_of_invalid (a : Fp32) (h : isInvalidScale a = true) :
    (fle a fp0 || !a.isNormal) = true := by
  by_cases hn : a.isNormal = true
  · have hbe : 1 ≤ a.biasedExp ∧ a.biasedExp ≤ 254 := by
      simpa only [Fp32.isNormal, decide_eq_true_eq] using hn
    have hs : a.sign = true := by
      by_contra hc
      have hs' : a.sign = false := by simpa using hc
      simp only [isInvalidScale, hs', Bool.or_eq_true, decide_eq_true_eq, Fp32.isNaN,
        Fp32.isInf, Bool.false_eq_true, or_false, false_or] at h
      omega
    have hnan : a.isNaN = false := isNaN_false_of_isNormal a hn
    have h255 : a.biasedExp ≠ 255 := by omega
    have hle : a.extScaled ≤ fp0.extScaled := by
      rw [extScaled_eq_scaledVal a h255, extScaled_fp0]
      exact scaledVal_nonpos a hs
    have hfle : fle a fp0 = true := by
      simp [fle, hnan, Fp32.isNaN]
      exact ⟨⟨Or.inl h255, Or.inl (by decide)⟩, hle⟩
    simp [hfle]
  · have hn' : a.isNormal = false := by simpa using hn
    simp [hn']

theorem scale_check_eq (a : Fp32) (hw : a.wf) :
    (fle a fp0 || !a.isNormal) = isInvalidScale a := by
  obtain ⟨hbe, -⟩ := hw
  by_cases hs : a.sign = true
  · have hR : isInvalidScale a = true := by simp [isInvalidScale, hs]
    rw [hR]
    exact check_true_of_invalid a hR
  · have hs' : a.sign = false := by simpa using hs
    by_cases h0 : a.biasedExp = 0
    · have hR : isInvalidScale a = true := by
        simp only [isInvalidScale, Bool.or_eq_true, decide_eq_true_eq, Fp32.isNaN, Fp32.isInf,
          h0]
        by_cases hf : a.frac = 0 <;> tauto
      rw [hR]
      exact check_true_of_invalid a hR
    · by_cases h255 : a.biasedExp = 255
      · have hR : isInvalidScale a = true := by
          simp only [isInvalidScale, Bool.or_eq_true, decide_eq_true_eq, Fp32.isNaN, Fp32.isInf,
            h255]
          by_cases hf : a.frac = 0 <;> tauto
        rw [hR]
        exact check_true_of_invalid a hR
      · have hn : a.isNormal = true := by
          simp only [Fp32.isNormal, decide_eq_true_eq]
          omega
        have hR : isInvalidScale a = false := by
          simp only [isInvalidScale, Bool.or_eq_false_iff, decide_eq_false_iff_not, Fp32.isNaN,
            Fp32.isInf, hs']
          tauto
        rw [hR]
        exact check_false_of_posNormal a (by simp [isPosNormal, hs', hn])

theorem sign_false_of_valid_checks (a : Fp32) (hn : a.isNormal = true)
    (hf : fle a fp0 = false) : a.sign = false := by
  by_contra hc
  have hs : a.sign = true := by simpa using hc
  have hnan : a.isNaN = false := isNaN_false_of_isNormal a hn
  have h255 : a.biasedExp ≠ 255 := by
    simp only [Fp32.isNormal, decide_eq_true_eq] at hn
    omega
  have hle : a.extScaled ≤ fp0.extScaled := by
    rw [extScaled_eq_scaledVal a h255, extScaled_fp0]
    exact scaledVal_nonpos a hs
  have : fle a fp0 = true := by
    simp [fle, hnan, Fp32.isNaN]
    exact ⟨⟨Or.inl h255, Or.inl (by decide)⟩, hle⟩
  rw [this] at hf
  exact absurd hf (by decide)

theorem fge_eq_false_of_flt (a b : Fp32) (h : flt a b = true) : fge a b = false := by
  simp only [flt, Bool.and_eq_true, Bool.not_eq_true', decide_eq_true_eq] at h
  have h3 : a.extScaled < b.extScaled := h.2
  have h1 : a.isNaN = false := h.1.1
  have hnle : ¬ (b.extScaled ≤ a.extScaled) := by omega
  simp [fge, fle, h1, hnle]

theorem mkFinite_sign (s : Bool) (m : ℕ) (et : ℤ) : (mkFinite s m et).sign = s := by
  unfold mkFinite
  split <;> rfl

theorem mkFinite_isNaN (s : Bool) (m : ℕ) (et : ℤ) (h : et ≤ 104) :
    (mkFinite s m et).isNaN = false := by
  unfold mkFinite
  split
  · simp [Fp32.isNaN]
  · simp only [Fp32.isNaN, decide_eq_false_iff_not]
    rintro ⟨h255, -⟩
    omega

theorem roundToFp32_sign (s : Bool) (m : ℕ) (e : ℤ) : (roundToFp32 s m e).sign = s := by
  simp only [roundToFp32]
  split
  · rfl
  · exact mkFinite_sign s _ _

theorem roundToFp32_isNaN (s : Bool) (m : ℕ) (e : ℤ) : (roundToFp32 s m e).isNaN = false := by
  simp only [roundToFp32]
  split
  · simp [fpInf, Fp32.isNaN]
  · next h => exact mkFinite_isNaN s _ _ (by omega)

theorem fmul_pos_facts (a b : Fp32) (ha : a.isNormal = true) (hb : b.isNormal = true)
    (hsa : a.sign = false) (hsb : b.sign = false) :
    (fmul a b).isNaN = false ∧ (fmul a b).sign = false := by
  have h1 : a.isNaN = false := isNaN_false_of_isNormal a ha
  have h2 : b.isNaN = false := isNaN_false_of_isNormal b hb
  have h3 : a.isInf = false := isInf_false_of_isNormal a ha
  have h4 : b.isInf = false := isInf_false_of_isNormal b hb
  simp [fmul, h1, h2, h3, h4, hsa, hsb, roundToFp32_isNaN, roundToFp32_sign]

set_option maxRecDepth 8000 in
theorem roundToFp32_false_bounds (m : ℕ) (e : ℤ)
    (hge : fge (roundToFp32 false m e) fp1 = false) :
    (roundToFp32 false m e).isNaN = false ∧ (roundToFp32 false m e).biasedExp ≠ 255 ∧
    0 ≤ (roundToFp32 false m e).scaledVal ∧ (roundToFp32 false m e).scaledVal < 2 ^ 149 := by
  set r := roundToFp32 false m e with hr
  have hrnan : r.isNaN = false := by rw [hr]; exact roundToFp32_isNaN _ _ _
  have hrsign : r.sign = false := by rw [hr]; exact roundToFp32_sign _ _ _
  have hfp1nan : fp1.isNaN = false := by decide
  have hlt : r.extScaled < 2 ^ 149 := by
    by_contra hc
    push_neg at hc
    have : fge r fp1 = true := by
      simp only [fge, fle, hfp1nan, hrnan, Bool.not_false, Bool.true_and, Bool.and_self,
        decide_eq_true_eq, extScaled_fp1]
      exact hc
    rw [this] at hge
    exact absurd hge (by decide)
  have h255 : r.biasedExp ≠ 255 := by
    intro hb
    have : r.extScaled = 2 ^ 400 := by
      simp [Fp32.extScaled, hb, hrsign]
    rw [this] at hlt
    norm_num at hlt
  refine ⟨hrnan, h255, scaledVal_nonneg r hrsign, ?_⟩
  rw [← extScaled_eq_scaledVal r h255]
  exact hlt

set_option maxRecDepth 8000 in
theorem fdiv_result_facts (p osc : Fp32)
    (hpn : p.isNaN = false) (hps : p.sign = false)
    (hno : osc.isNormal = true) (hso : osc.sign = false)
    (hge : fge (fdiv p osc) fp1 = false) :
    (fdiv p osc).isNaN = false ∧ (fdiv p osc).biasedExp ≠ 255 ∧
    0 ≤ (fdiv p osc).scaledVal ∧ (fdiv p osc).scaledVal < 2 ^ 149 := by
  have h2 : osc.isNaN = false := isNaN_false_of_isNormal osc hno
  have h4 : osc.isInf = false := isInf_false_of_isNormal osc hno
  have h5 : osc.sig ≠ 0 := sig_ne_zero_of_isNormal osc hno
  by_cases hpi : p.isInf = true
  · exfalso
    have heq : fdiv p osc = fpInf false := by
      simp [fdiv, hpn, h2, hpi, h4, hps, hso]
    rw [heq] at hge
    exact absurd hge (by decide)
  · have hpi' : p.isInf = false := by simpa using hpi
    by_cases hp0 : p.sig = 0
    · have heq : fdiv p osc = fpZero false := by
        simp [fdiv, hpn, h2, hpi', h4, h5, hp0, hps, hso]
      rw [heq]
      have hz : (fpZero false).scaledVal = 0 := by decide
      refine ⟨by decide, by decide, ?_, ?_⟩
      · rw [hz]
      · rw [hz]
        positivity
    · have heq : fdiv p osc = roundToFp32 false
          (2 * (p.sig * 2 ^ 48 / osc.sig) + (if p.sig * 2 ^ 48 % osc.sig = 0 then 0 else 1))
          (p.expVal - osc.expVal - 49) := by
        simp [fdiv, hpn, h2, hpi', h4, h5, hp0, hps, hso]
      rw [heq] at hge ⊢
      exact roundToFp32_false_bounds _ _ hge

theorem fused_scale_facts (isc ksc osc : Fp32)
    (hni : isc.isNormal = true) (hsi : isc.sign = false)
    (hnk : ksc.isNormal = true) (hsk : ksc.sign = false)
    (hno : osc.isNormal = true) (hso : osc.sign = false)
    (hge : fge (fdiv (fmul isc ksc) osc) fp1 = false) :
    (fdiv (fmul isc ksc) osc).isNaN = false ∧
    (fdiv (fmul isc ksc) osc).biasedExp ≠ 255 ∧
    0 ≤ (fdiv (fmul isc ksc) osc).scaledVal ∧
    (fdiv (fmul isc ksc) osc).scaledVal < 2 ^ 149 := by
  obtain ⟨hpn, hps⟩ := fmul_pos_facts isc ksc hni hnk hsi hsk
  exact fdiv_result_facts (fmul isc ksc) osc hpn hps hno hso hge

theorem land_mask (a x : ℕ) (ha : a ≤ 32) (hx : x < 2 ^ 32) :
    x &&& (2 ^ 32 - 2 ^ a) = 2 ^ a * (x / 2 ^ a) := by
  have hmask : (2 : ℕ) ^ 32 - 2 ^ a = (2 ^ (32 - a) - 1) <<< a := by
    rw [Nat.shiftLeft_eq, Nat.sub_mul, one_mul, ← pow_add, Nat.sub_add_cancel ha]
  have hr : 2 ^ a * (x / 2 ^ a) = (x >>> a) <<< a := by
    rw [Nat.shiftLeft_eq, Nat.shiftRight_eq_div_pow, Nat.mul_comm]
  rw [hmask, hr]
  apply Nat.eq_of_testBit_eq
  intro j
  simp only [Nat.testBit_land, Nat.testBit_shiftLeft, Nat.testBit_shiftRight,
    Nat.testBit_two_pow_sub_one, ge_iff_le]
  by_cases hj : a ≤ j
  · have hja : a + (j - a) = j := by omega
    rw [hja]
    by_cases hj32 : j < 32
    · have h32 : j - a < 32 - a := by omega
      simp [hj, h32]
    · have hxj : x.testBit j = false :=
        Nat.testBit_lt_two_pow (lt_of_lt_of_le hx (Nat.pow_le_pow_right (by norm_num) (by omega)))
      have h32 : ¬ (j - a < 32 - a) := by omega
      simp [hj, h32, hxj]
  · simp [hj]

theorem stride_eq (c a : ℕ) (ha : a ≤ 31) (h : c + (2 ^ a - 1) < 2 ^ 32) :
    ((c + (2 ^ a - 1)) % 2 ^ 64) &&& ((2 ^ 32 - 2 ^ a) % 2 ^ 32) = roundUpMul (2 ^ a) c := by
  have hp : (0 : ℕ) < 2 ^ a := Nat.two_pow_pos a
  have h1 : (c + (2 ^ a - 1)) % 2 ^ 64 = c + (2 ^ a - 1) :=
    Nat.mod_eq_of_lt (lt_of_lt_of_le h (by norm_num))
  have h2 : (2 ^ 32 - 2 ^ a) % 2 ^ 32 = 2 ^ 32 - 2 ^ a := by
    apply Nat.mod_eq_of_lt
    have h32 : (0 : ℕ) < 2 ^ 32 := by norm_num
    omega
  rw [h1, h2, land_mask a _ (by omega) h]
  rfl

/-- C1: for every Create input with all three scales positive, finite and
normal, fused scale (computed in binary32) below 1.0, the context
initialized and both allocations succeeding, Create returns success and
the requantization scale stored in the operator's quantization parameters
is exactly the binary32 value `input_scale * kernel_scale / output_scale`. -/
theorem create_stores_fused_requantization_scale
    (params : QnnpParams) (a1 a2 : Bool) (ic oc izp : ℕ) (isc : Fp32) (kzp : ℕ)
    (ksc : Fp32) (kernel : ℕ → ℕ) (bias : ℕ → ℤ) (ozp : ℕ) (osc : Fp32) (omin omax : ℕ)
    (hinit : params.initialized = true) (ha1 : a1 = true) (ha2 : a2 = true)
    (hpi : isPosNormal isc = true) (hpk : isPosNormal ksc = true)
    (hpo : isPosNormal osc = true)
    (hflt : flt (fdiv (fmul isc ksc) osc) fp1 = true) :
    (qnnp_create_fully_connected_nc_q8 params a1 a2 ic oc izp isc kzp ksc kernel bias
      ozp osc omin omax).status = QnnpStatus.success ∧
    ((qnnp_create_fully_connected_nc_q8 params a1 a2 ic oc izp isc kzp ksc kernel bias
      ozp osc omin omax).fully_connected_out.map
      (fun o => o.conv_quantization_params.requantization_scale)) =
      some (fdiv (fmul isc ksc) osc) := by
  have c1 := check_false_of_posNormal isc hpi
  have c2 := check_false_of_posNormal ksc hpk
  have c3 := check_false_of_posNormal osc hpo
  have cf := fge_eq_false_of_flt _ _ hflt
  simp [qnnp_create_fully_connected_nc_q8, hinit, c1, c2, c3, cf, ha1, ha2,
    qnnp_compute_conv_quantization_params]

theorem create_stores_fused_requantization_scale_witness :
    isPosNormal fp1 = true ∧ isPosNormal (⟨false, 128, 0⟩ : Fp32) = true ∧
    flt (fdiv (fmul fp1 fp1) ⟨false, 128, 0⟩) fp1 = true ∧
    ((qnnp_create_fully_connected_nc_q8 ⟨true, 4, 8⟩ true true 3 5 0 fp1 128 fp1
      (fun _ => 7) (fun _ => 0) 0 ⟨false, 128, 0⟩ 0 255).status = QnnpStatus.success ∧
    ((qnnp_create_fully_connected_nc_q8 ⟨true, 4, 8⟩ true true 3 5 0 fp1 128 fp1
      (fun _ => 7) (fun _ => 0) 0 ⟨false, 128, 0⟩ 0 255).fully_connected_out.map
      (fun o => o.conv_quantization_params.requantization_scale)) =
      some (fdiv (fmul fp1 fp1) ⟨false, 128, 0⟩)) :=
  ⟨by decide, by decide, by decide,
   create_stores_fused_requantization_scale ⟨true, 4, 8⟩ true true 3 5 0 fp1 128 fp1
     (fun _ => 7) (fun _ => 0) 0 ⟨false, 128, 0⟩ 0 255 rfl rfl rfl
     (by decide) (by decide) (by decide) (by decide)⟩

/-- C2: for every Create input whose three scales are positive, finite and
normal but whose binary32 fused scale is `>= 1.0`, Create fails with
`unsupported_parameter`, keeps no allocation alive, and never writes the
output handle (the context is assumed initialized, as for C1). -/
theorem create_rejects_fused_scale_ge_one
    (params : QnnpParams) (a1 a2 : Bool) (ic oc izp : ℕ) (isc : Fp32) (kzp : ℕ)
    (ksc : Fp32) (kernel : ℕ → ℕ) (bias : ℕ → ℤ) (ozp : ℕ) (osc : Fp32) (omin omax : ℕ)
    (hinit : params.initialized = true)
    (hpi : isPosNormal isc = true) (hpk : isPosNormal ksc = true)
    (hpo : isPosNormal osc = true)
    (hge : fge (fdiv (fmul isc ksc) osc) fp1 = true) :
    (qnnp_create_fully_connected_nc_q8 params a1 a2 ic oc izp isc kzp ksc kernel bias
      ozp osc omin omax).status = QnnpStatus.unsupported_parameter ∧
    (qnnp_create_fully_connected_nc_q8 params a1 a2 ic oc izp isc kzp ksc kernel bias
      ozp osc omin omax).fully_connected_out = none ∧
    (qnnp_create_fully_connected_nc_q8 params a1 a2 ic oc izp isc kzp ksc kernel bias
      ozp osc omin omax).live_allocations = 0 := by
  have c1 := check_false_of_posNormal isc hpi
  have c2 := check_false_of_posNormal ksc hpk
  have c3 := check_false_of_posNormal osc hpo
  simp [qnnp_create_fully_connected_nc_q8, hinit, c1, c2, c3, hge]

theorem create_rejects_fused_scale_ge_one_witness :
    isPosNormal fp1 = true ∧ isPosNormal (⟨false, 126, 0⟩ : Fp32) = true ∧
    fge (fdiv (fmul fp1 fp1) ⟨false, 126, 0⟩) fp1 = true ∧
    ((qnnp_create_fully_connected_nc_q8 ⟨true, 4, 8⟩ true true 3 5 0 fp1 128 fp1
      (fun _ => 7) (fun _ => 0) 0 ⟨false, 126, 0⟩ 0 255).status =
      QnnpStatus.unsupported_parameter ∧
    (qnnp_create_fully_connected_nc_q8 ⟨true, 4, 8⟩ true true 3 5 0 fp1 128 fp1
      (fun _ => 7) (fun _ => 0) 0 ⟨false, 126, 0⟩ 0 255).fully_connected_out = none ∧
    (qnnp_create_fully_connected_nc_q8 ⟨true, 4, 8⟩ true true 3 5 0 fp1 128 fp1
      (fun _ => 7) (fun _ => 0) 0 ⟨false, 126, 0⟩ 0 255).live_allocations = 0) :=
  ⟨by decide, by decide, by decide,
   create_rejects_fused_scale_ge_one ⟨true, 4, 8⟩ true true 3 5 0 fp1 128 fp1
     (fun _ => 7) (fun _ => 0) 0 ⟨false, 126, 0⟩ 0 255 rfl
     (by decide) (by decide) (by decide) (by decide)⟩

/-- C3: with the context initialized, an invalid scale (zero, negative,
subnormal, NaN or infinite) makes Create fail with `invalid_parameter`,
attributing the failure to the first invalid scale in the order input,
kernel, output, and no handle is produced. -/
theorem create_rejects_invalid_scales_in_order
    (params : QnnpParams) (a1 a2 : Bool) (ic oc izp : ℕ) (isc : Fp32) (kzp : ℕ)
    (ksc : Fp32) (kernel : ℕ → ℕ) (bias : ℕ → ℤ) (ozp : ℕ) (osc : Fp32) (omin omax : ℕ)
    (hinit : params.initialized = true) :
    (isInvalidScale isc = true →
      (qnnp_create_fully_connected_nc_q8 params a1 a2 ic oc izp isc kzp ksc kernel bias
        ozp osc omin omax).status = QnnpStatus.invalid_parameter ∧
      (qnnp_create_fully_connected_nc_q8 params a1 a2 ic oc izp isc kzp ksc kernel bias
        ozp osc omin omax).failed_scale = some ScaleKind.input ∧
      (qnnp_create_fully_connected_nc_q8 params a1 a2 ic oc izp isc kzp ksc kernel bias
        ozp osc omin omax).fully_connected_out = none) ∧
    (isPosNormal isc = true → isInvalidScale ksc = true →
      (qnnp_create_fully_connected_nc_q8 params a1 a2 ic oc izp isc kzp ksc kernel bias
        ozp osc omin omax).status = QnnpStatus.invalid_parameter ∧
      (qnnp_create_fully_connected_nc_q8 params a1 a2 ic oc izp isc kzp ksc kernel bias
        ozp osc omin omax).failed_scale = some ScaleKind.kernel ∧
      (qnnp_create_fully_connected_nc_q8 params a1 a2 ic oc izp isc kzp ksc kernel bias
        ozp osc omin omax).fully_connected_out = none) ∧
    (isPosNormal isc = true → isPosNormal ksc = true → isInvalidScale osc = true →
      (qnnp_create_fully_connected_nc_q8 params a1 a2 ic oc izp isc kzp ksc kernel bias
        ozp osc omin omax).status = QnnpStatus.invalid_parameter ∧
      (qnnp_create_fully_connected_nc_q8 params a1 a2 ic oc izp isc kzp ksc kernel bias
        ozp osc omin omax).failed_scale = some ScaleKind.output ∧
      (qnnp_create_fully_connected_nc_q8 params a1 a2 ic oc izp isc kzp ksc kernel bias
        ozp osc omin omax).fully_connected_out = none) := by
  refine ⟨fun h => ?_, fun h1 h => ?_, fun h1 h2 h => ?_⟩
  · have c := check_true_of_invalid isc h
    simp [qnnp_create_fully_connected_nc_q8, hinit, c]
  · have d1 := check_false_of_posNormal isc h1
    have c := check_true_of_invalid ksc h
    simp [qnnp_create_fully_connected_nc_q8, hinit, d1, c]
  · have d1 := check_false_of_posNormal isc h1
    have d2 := check_false_of_posNormal ksc h2
    have c := check_true_of_invalid osc h
    simp [qnnp_create_fully_connected_nc_q8, hinit, d1, d2, c]

theorem create_rejects_invalid_scales_in_order_witness :
    isPosNormal fp1 = true ∧ isInvalidScale fpNaN = true ∧
    ((qnnp_create_fully_connected_nc_q8 ⟨true, 4, 8⟩ true true 3 5 0 fp1 128 fpNaN
      (fun _ => 7) (fun _ => 0) 0 fp1 0 255).status = QnnpStatus.invalid_parameter ∧
    (qnnp_create_fully_connected_nc_q8 ⟨true, 4, 8⟩ true true 3 5 0 fp1 128 fpNaN
      (fun _ => 7) (fun _ => 0) 0 fp1 0 255).failed_scale = some ScaleKind.kernel ∧
    (qnnp_create_fully_connected_nc_q8 ⟨true, 4, 8⟩ true true 3 5 0 fp1 128 fpNaN
      (fun _ => 7) (fun _ => 0) 0 fp1 0 255).fully_connected_out = none) :=
  ⟨by decide, by decide,
   (create_rejects_invalid_scales_in_order ⟨true, 4, 8⟩ true true 3 5 0 fp1 128 fpNaN
     (fun _ => 7) (fun _ => 0) 0 fp1 0 255 rfl).2.1 (by decide) (by decide)⟩

/-- C10: Create does not validate the channel counts: with valid scales, a
fused scale below 1.0, initialized context and succeeding allocations, a
zero input or output channel count still yields success, and the zero
count is stored in the operator. -/
theorem create_accepts_zero_channels
    (params : QnnpParams) (a1 a2 : Bool) (ic oc izp : ℕ) (isc : Fp32) (kzp : ℕ)
    (ksc : Fp32) (kernel : ℕ → ℕ) (bias : ℕ → ℤ) (ozp : ℕ) (osc : Fp32) (omin omax : ℕ)
    (hinit : params.initialized = true) (ha1 : a1 = true) (ha2 : a2 = true)
    (hpi : isPosNormal isc = true) (hpk : isPosNormal ksc = true)
    (hpo : isPosNormal osc = true)
    (hflt : flt (fdiv (fmul isc ksc) osc) fp1 = true)
    (hzero : ic = 0 ∨ oc = 0) :
    (qnnp_create_fully_connected_nc_q8 params a1 a2 ic oc izp isc kzp ksc kernel bias
      ozp osc omin omax).status = QnnpStatus.success ∧
    ((qnnp_create_fully_connected_nc_q8 params a1 a2 ic oc izp isc kzp ksc kernel bias
      ozp osc omin omax).fully_connected_out.map
      (fun o => (o.group_input_channels, o.group_output_channels))) = some (ic, oc) := by
  have c1 := check_false_of_posNormal isc hpi
  have c2 := check_false_of_posNormal ksc hpk
  have c3 := check_false_of_posNormal osc hpo
  have cf := fge_eq_false_of_flt _ _ hflt
  simp [qnnp_create_fully_connected_nc_q8, hinit, c1, c2, c3, cf, ha1, ha2]

theorem create_accepts_zero_channels_witness :
    isPosNormal fp1 = true ∧ isPosNormal (⟨false, 128, 0⟩ : Fp32) = true ∧
    flt (fdiv (fmul fp1 fp1) ⟨false, 128, 0⟩) fp1 = true ∧ ((0 : ℕ) = 0 ∨ (5 : ℕ) = 0) ∧
    ((qnnp_create_fully_connected_nc_q8 ⟨true, 4, 8⟩ true true 0 5 0 fp1 128 fp1
      (fun _ => 7) (fun _ => 0) 0 ⟨false, 128, 0⟩ 0 255).status = QnnpStatus.success ∧
    ((qnnp_create_fully_connected_nc_q8 ⟨true, 4, 8⟩ true true 0 5 0 fp1 128 fp1
      (fun _ => 7) (fun _ => 0) 0 ⟨false, 128, 0⟩ 0 255).fully_connected_out.map
      (fun o => (o.group_input_channels, o.group_output_channels))) = some (0, 5)) :=
  ⟨by decide, by decide, by decide, Or.inl rfl,
   create_accepts_zero_channels ⟨true, 4, 8⟩ true true 0 5 0 fp1 128 fp1
     (fun _ => 7) (fun _ => 0) 0 ⟨false, 128, 0⟩ 0 255 rfl rfl rfl
     (by decide) (by decide) (by decide) (by decide) (Or.inl rfl)⟩

/-- C4: for every successful Create with power-of-two tile geometry from
the global context and channel counts small enough not to truncate the
32-bit stride arithmetic, the packed buffer allocation size in bytes is
`roundup(output_channels, nr) * (roundup(input_channels, kr) + 4)`, with
the strides being exactly those round-ups. -/
theorem create_packed_buffer_size
    (params : QnnpParams) (a1 a2 : Bool) (ic oc izp : ℕ) (isc : Fp32) (kzp : ℕ)
    (ksc : Fp32) (kernel : ℕ → ℕ) (bias : ℕ → ℤ) (ozp : ℕ) (osc : Fp32) (omin omax : ℕ)
    (aexp bexp : ℕ)
    (hinit : params.initialized = true) (ha1 : a1 = true) (ha2 : a2 = true)
    (hpi : isPosNormal isc = true) (hpk : isPosNormal ksc = true)
    (hpo : isPosNormal osc = true)
    (hflt : flt (fdiv (fmul isc ksc) osc) fp1 = true)
    (hnr : params.nr = 2 ^ aexp) (hkr : params.kr = 2 ^ bexp)
    (han : aexp ≤ 31) (hbn : bexp ≤ 31)
    (hoc : oc + (2 ^ aexp - 1) < 2 ^ 32) (hic : ic + (2 ^ bexp - 1) < 2 ^ 32)
    (hsz : roundUpMul (2 ^ aexp) oc * (roundUpMul (2 ^ bexp) ic + 4) < 2 ^ 64) :
    (qnnp_create_fully_connected_nc_q8 params a1 a2 ic oc izp isc kzp ksc kernel bias
      ozp osc omin omax).status = QnnpStatus.success ∧
    ((qnnp_create_fully_connected_nc_q8 params a1 a2 ic oc izp isc kzp ksc kernel bias
      ozp osc omin omax).fully_connected_out.map
      (fun o => (o.packed_kernel.n_stride, o.packed_kernel.k_stride, o.packed_kernel.size))) =
      some (roundUpMul (2 ^ aexp) oc, roundUpMul (2 ^ bexp) ic,
        roundUpMul (2 ^ aexp) oc * (roundUpMul (2 ^ bexp) ic + 4)) := by
  have c1 := check_false_of_posNormal isc hpi
  have c2 := check_false_of_posNormal ksc hpk
  have c3 := check_false_of_posNormal osc hpo
  have cf := fge_eq_false_of_flt _ _ hflt
  have hn := stride_eq oc aexp han hoc
  have hk := stride_eq ic bexp hbn hic
  have hmod : roundUpMul (2 ^ aexp) oc * (roundUpMul (2 ^ bexp) ic + 4) % 2 ^ 64 =
      roundUpMul (2 ^ aexp) oc * (roundUpMul (2 ^ bexp) ic + 4) := Nat.mod_eq_of_lt hsz
  simp at hn hk hmod
  simp [qnnp_create_fully_connected_nc_q8, hinit, c1, c2, c3, cf, ha1, ha2, hnr, hkr, hn, hk,
    hmod]

theorem create_packed_buffer_size_witness :
    isPosNormal fp1 = true ∧ isPosNormal (⟨false, 128, 0⟩ : Fp32) = true ∧
    flt (fdiv (fmul fp1 fp1) ⟨false, 128, 0⟩) fp1 = true ∧
    (⟨true, 4, 8⟩ : QnnpParams).nr = 2 ^ 2 ∧ (⟨true, 4, 8⟩ : QnnpParams).kr = 2 ^ 3 ∧
    ((qnnp_create_fully_connected_nc_q8 ⟨true, 4, 8⟩ true true 3 5 0 fp1 128 fp1
      (fun _ => 7) (fun _ => 0) 0 ⟨false, 128, 0⟩ 0 255).fully_connected_out.map
      (fun o => (o.packed_kernel.n_stride, o.packed_kernel.k_stride, o.packed_kernel.size))) =
      some (8, 8, 96) ∧ (8 : ℕ) / 4 = 2 :=
  ⟨by decide, by decide, by decide, rfl, rfl,
   ((create_packed_buffer_size ⟨true, 4, 8⟩ true true 3 5 0 fp1 128 fp1
     (fun _ => 7) (fun _ => 0) 0 ⟨false, 128, 0⟩ 0 255 2 3 rfl rfl rfl
     (by decide) (by decide) (by decide) (by decide) rfl rfl
     (by norm_num) (by norm_num) (by norm_num) (by norm_num)
     (by norm_num [roundUpMul])).2).trans (by decide),
   by norm_num⟩

/-- C5: for every successful Create, every padding cell of the packed
weight buffer (a cell inside the stride-padded geometry but beyond the
true output rows or true input columns of weight data) holds exactly the
kernel zero point (the `memset` value `pack_q8gemm_w` never overwrites). -/
theorem create_packed_padding_is_kernel_zero_point
    (params : QnnpParams) (a1 a2 : Bool) (ic oc izp : ℕ) (isc : Fp32) (kzp : ℕ)
    (ksc : Fp32) (kernel : ℕ → ℕ) (bias : ℕ → ℤ) (ozp : ℕ) (osc : Fp32) (omin omax : ℕ)
    (hinit : params.initialized = true) (ha1 : a1 = true) (ha2 : a2 = true)
    (hpi : isPosNormal isc = true) (hpk : isPosNormal ksc = true)
    (hpo : isPosNormal osc = true)
    (hflt : flt (fdiv (fmul isc ksc) osc) fp1 = true) :
    (qnnp_create_fully_connected_nc_q8 params a1 a2 ic oc izp isc kzp ksc kernel bias
      ozp osc omin omax).status = QnnpStatus.success ∧
    (qnnp_create_fully_connected_nc_q8 params a1 a2 ic oc izp isc kzp ksc kernel bias
      ozp osc omin omax).fully_connected_out.elim False (fun o =>
      ∀ i, i < o.packed_kernel.n_stride → ∀ j, j < o.packed_kernel.k_stride →
        (oc ≤ i ∨ ic ≤ j) → o.packed_kernel.cell i j = kzp) := by
  have c1 := check_false_of_posNormal isc hpi
  have c2 := check_false_of_posNormal ksc hpk
  have c3 := check_false_of_posNormal osc hpo
  have cf := fge_eq_false_of_flt _ _ hflt
  refine ⟨?_, ?_⟩
  · simp [qnnp_create_fully_connected_nc_q8, hinit, c1, c2, c3, cf, ha1, ha2]
  · simp [qnnp_create_fully_connected_nc_q8, hinit, c1, c2, c3, cf, ha1, ha2, Option.elim]
    intro i hi j hj hpad
    simp only [pack_q8gemm_w]
    rw [if_neg]
    rintro ⟨hio, hjo⟩
    rcases hpad with h | h <;> omega

theorem create_packed_padding_is_kernel_zero_point_witness :
    isPosNormal fp1 = true ∧ isPosNormal (⟨false, 128, 0⟩ : Fp32) = true ∧
    flt (fdiv (fmul fp1 fp1) ⟨false, 128, 0⟩) fp1 = true ∧
    ((qnnp_create_fully_connected_nc_q8 ⟨true, 4, 8⟩ true true 3 5 0 fp1 128 fp1
      (fun _ => 7) (fun _ => 0) 0 ⟨false, 128, 0⟩ 0 255).status = QnnpStatus.success ∧
    (qnnp_create_fully_connected_nc_q8 ⟨true, 4, 8⟩ true true 3 5 0 fp1 128 fp1
      (fun _ => 7) (fun _ => 0) 0 ⟨false, 128, 0⟩ 0 255).fully_connected_out.elim False
      (fun o => ∀ i, i < o.packed_kernel.n_stride → ∀ j, j < o.packed_kernel.k_stride →
        (5 ≤ i ∨ 3 ≤ j) → o.packed_kernel.cell i j = 128)) :=
  ⟨by decide, by decide, by decide,
   create_packed_padding_is_kernel_zero_point ⟨true, 4, 8⟩ true true 3 5 0 fp1 128 fp1
     (fun _ => 7) (fun _ => 0) 0 ⟨false, 128, 0⟩ 0 255 rfl rfl rfl
     (by decide) (by decide) (by decide) (by decide)⟩

/-- C8: for every Create input, the returned status is exactly the one the
spec's first-violated-precondition order prescribes, and on any failure no
handle is written and no allocation survives. -/
theorem create_failure_protocol
    (params : QnnpParams) (a1 a2 : Bool) (ic oc izp : ℕ) (isc : Fp32) (kzp : ℕ)
    (ksc : Fp32) (kernel : ℕ → ℕ) (bias : ℕ → ℤ) (ozp : ℕ) (osc : Fp32) (omin omax : ℕ)
    (hw1 : isc.wf) (hw2 : ksc.wf) (hw3 : osc.wf) :
    (qnnp_create_fully_connected_nc_q8 params a1 a2 ic oc izp isc kzp ksc kernel bias
      ozp osc omin omax).status = specExpectedCreateStatus params a1 a2 isc ksc osc ∧
    ((qnnp_create_fully_connected_nc_q8 params a1 a2 ic oc izp isc kzp ksc kernel bias
      ozp osc omin omax).status ≠ QnnpStatus.success →
      (qnnp_create_fully_connected_nc_q8 params a1 a2 ic oc izp isc kzp ksc kernel bias
        ozp osc omin omax).fully_connected_out = none ∧
      (qnnp_create_fully_connected_nc_q8 params a1 a2 ic oc izp isc kzp ksc kernel bias
        ozp osc omin omax).live_allocations = 0) := by
  have e1 := scale_check_eq isc hw1
  have e2 := scale_check_eq ksc hw2
  have e3 := scale_check_eq osc hw3
  simp only [qnnp_create_fully_connected_nc_q8, specExpectedCreateStatus, e1, e2, e3]
  split_ifs <;> simp

theorem create_failure_protocol_witness :
    Fp32.wf fp1 ∧
    ((qnnp_create_fully_connected_nc_q8 ⟨false, 4, 8⟩ true true 3 5 0 fp1 128 fp1
      (fun _ => 7) (fun _ => 0) 0 fp1 0 255).status =
      specExpectedCreateStatus ⟨false, 4, 8⟩ true true fp1 fp1 fp1 ∧
    ((qnnp_create_fully_connected_nc_q8 ⟨false, 4, 8⟩ true true 3 5 0 fp1 128 fp1
      (fun _ => 7) (fun _ => 0) 0 fp1 0 255).status ≠ QnnpStatus.success →
      (qnnp_create_fully_connected_nc_q8 ⟨false, 4, 8⟩ true true 3 5 0 fp1 128 fp1
        (fun _ => 7) (fun _ => 0) 0 fp1 0 255).fully_connected_out = none ∧
      (qnnp_create_fully_connected_nc_q8 ⟨false, 4, 8⟩ true true 3 5 0 fp1 128 fp1
        (fun _ => 7) (fun _ => 0) 0 fp1 0 255).live_allocations = 0)) :=
  ⟨by norm_num [Fp32.wf, fp1],
   create_failure_protocol ⟨false, 4, 8⟩ true true 3 5 0 fp1 128 fp1
     (fun _ => 7) (fun _ => 0) 0 fp1 0 255 (by norm_num [Fp32.wf, fp1])
     (by norm_num [Fp32.wf, fp1]) (by norm_num [Fp32.wf, fp1])⟩

/-- C6: a Bind with non-zero batch size (context initialized) succeeds,
writes exactly the transient fields - internal batch size 1, input/output
height = batch size, widths 1, the given buffer references and strides -
leaves every other field unchanged, and a second Bind fully replaces the
values written by the first. -/
theorem setup_overwrites_transient_fields
    (params : QnnpParams) (op : QnnpOperator) (batch input istr output ostr tp : ℕ)
    (hinit : params.initialized = true) (hb : batch ≠ 0) :
    (qnnp_setup_fully_connected_nc_q8 params op batch input istr output ostr tp).1 =
      QnnpStatus.success ∧
    setupWrites op (qnnp_setup_fully_connected_nc_q8 params op batch input istr output ostr tp).2
      batch input istr output ostr ∧
    (∀ batch2 input2 istr2 output2 ostr2 tp2, batch2 ≠ 0 →
      qnnp_setup_fully_connected_nc_q8 params
        (qnnp_setup_fully_connected_nc_q8 params op batch input istr output ostr tp).2
        batch2 input2 istr2 output2 ostr2 tp2 =
      qnnp_setup_fully_connected_nc_q8 params op batch2 input2 istr2 output2 ostr2 tp2) := by
  refine ⟨?_, ?_, ?_⟩
  · simp [qnnp_setup_fully_connected_nc_q8, hinit, hb]
  · simp [qnnp_setup_fully_connected_nc_q8, hinit, hb, setupWrites]
  · intro b2 i2 is2 o2 os2 t2 hb2
    simp [qnnp_setup_fully_connected_nc_q8, hinit, hb, hb2]

theorem setup_overwrites_transient_fields_witness :
    (3 : ℕ) ≠ 0 ∧ (7 : ℕ) ≠ 0 ∧
    (qnnp_setup_fully_connected_nc_q8 ⟨true, 4, 8⟩ sampleOp 3 11 22 33 44 0).1 =
      QnnpStatus.success ∧
    setupWrites sampleOp
      (qnnp_setup_fully_connected_nc_q8 ⟨true, 4, 8⟩ sampleOp 3 11 22 33 44 0).2
      3 11 22 33 44 ∧
    qnnp_setup_fully_connected_nc_q8 ⟨true, 4, 8⟩
      (qnnp_setup_fully_connected_nc_q8 ⟨true, 4, 8⟩ sampleOp 3 11 22 33 44 0).2
      7 55 66 77 88 0 =
    qnnp_setup_fully_connected_nc_q8 ⟨true, 4, 8⟩ sampleOp 7 55 66 77 88 0 :=
  ⟨by decide, by decide,
   (setup_overwrites_transient_fields ⟨true, 4, 8⟩ sampleOp 3 11 22 33 44 0 rfl
     (by decide)).1,
   (setup_overwrites_transient_fields ⟨true, 4, 8⟩ sampleOp 3 11 22 33 44 0 rfl
     (by decide)).2.1,
   (setup_overwrites_transient_fields ⟨true, 4, 8⟩ sampleOp 3 11 22 33 44 0 rfl
     (by decide)).2.2 7 55 66 77 88 0 (by decide)⟩

/-- C7: a Bind with batch size 0 (context initialized) returns
`invalid_parameter` and leaves the operator object entirely unchanged,
including its packed weight data. -/
theorem setup_zero_batch_rejected_unchanged
    (params : QnnpParams) (op : QnnpOperator) (input istr output ostr tp : ℕ)
    (hinit : params.initialized = true) :
    qnnp_setup_fully_connected_nc_q8 params op 0 input istr output ostr tp =
      (QnnpStatus.invalid_parameter, op) := by
  simp [qnnp_setup_fully_connected_nc_q8, hinit]

theorem setup_zero_batch_rejected_unchanged_witness :
    (⟨true, 4, 8⟩ : QnnpParams).initialized = true ∧
    qnnp_setup_fully_connected_nc_q8 ⟨true, 4, 8⟩ sampleOp 0 11 22 33 44 0 =
      (QnnpStatus.invalid_parameter, sampleOp) :=
  ⟨rfl, setup_zero_batch_rejected_unchanged ⟨true, 4, 8⟩ sampleOp 11 22 33 44 0 rfl⟩

set_option maxRecDepth 8000 in
/-- C9 counterexample: with input and kernel scale both `2^-75` (positive,
finite, normal) and output scale 1.0, Create succeeds, but the binary32
product underflows to +0.0, so the stored fused requantization scale is 0,
not strictly inside the open interval (0, 1). -/
theorem fused_scale_open_interval_cex :
    (qnnp_create_fully_connected_nc_q8 ⟨true, 4, 8⟩ true true 1 1 0 ⟨false, 52, 0⟩ 0
      ⟨false, 52, 0⟩ (fun _ => 0) (fun _ => 0) 0 fp1 0 255).status = QnnpStatus.success ∧
    isPosNormal ⟨false, 52, 0⟩ = true ∧
    ((qnnp_create_fully_connected_nc_q8 ⟨true, 4, 8⟩ true true 1 1 0 ⟨false, 52, 0⟩ 0
      ⟨false, 52, 0⟩ (fun _ => 0) (fun _ => 0) 0 fp1 0 255).fully_connected_out.map
      (fun o => o.conv_quantization_params.requantization_scale)) = some fp0 ∧
    ¬ (0 < Fp32.toRat fp0 ∧ Fp32.toRat fp0 < 1) :=
  ⟨by decide, by decide, by decide,
   by norm_num [Fp32.toRat, Fp32.scaledVal, Fp32.sig, Fp32.expVal, fp0]⟩

/-- C9 (amended): for every successfully created operator, the stored fused
requantization scale is a non-NaN finite binary32 value in the half-open
interval [0, 1): it can be exactly 0 when the binary32 product underflows,
and is otherwise strictly between 0 and 1. -/
theorem fused_scale_in_unit_half_open
    (params : QnnpParams) (a1 a2 : Bool) (ic oc izp : ℕ) (isc : Fp32) (kzp : ℕ)
    (ksc : Fp32) (kernel : ℕ → ℕ) (bias : ℕ → ℤ) (ozp : ℕ) (osc : Fp32) (omin omax : ℕ)
    (hs : (qnnp_create_fully_connected_nc_q8 params a1 a2 ic oc izp isc kzp ksc kernel bias
      ozp osc omin omax).status = QnnpStatus.success) :
    (qnnp_create_fully_connected_nc_q8 params a1 a2 ic oc izp isc kzp ksc kernel bias
      ozp osc omin omax).fully_connected_out.elim False (fun o =>
      o.conv_quantization_params.requantization_scale.isNaN = false ∧
      0 ≤ o.conv_quantization_params.requantization_scale.toRat ∧
      o.conv_quantization_params.requantization_scale.toRat < 1) := by
  unfold qnnp_create_fully_connected_nc_q8 at hs ⊢
  split_ifs at hs ⊢ with h1 h2 h3 h4 h5 h6 h7
  have hf1 : fle isc fp0 = false := by
    rcases Bool.eq_false_or_eq_true (fle isc fp0) with h | h
    · exact absurd (by simp [h]) h2
    · exact h
  have hn1 : isc.isNormal = true := by
    rcases Bool.eq_false_or_eq_true isc.isNormal with h | h
    · exact h
    · exact absurd (by simp [h]) h2
  have hf2 : fle ksc fp0 = false := by
    rcases Bool.eq_false_or_eq_true (fle ksc fp0) with h | h
    · exact absurd (by simp [h]) h3
    · exact h
  have hn2 : ksc.isNormal = true := by
    rcases Bool.eq_false_or_eq_true ksc.isNormal with h | h
    · exact h
    · exact absurd (by simp [h]) h3
  have hf3 : fle osc fp0 = false := by
    rcases Bool.eq_false_or_eq_true (fle osc fp0) with h | h
    · exact absurd (by simp [h]) h4
    · exact h
  have hn3 : osc.isNormal = true := by
    rcases Bool.eq_false_or_eq_true osc.isNormal with h | h
    · exact h
    · exact absurd (by simp [h]) h4
  have hge : fge (fdiv (fmul isc ksc) osc) fp1 = false := by
    rcases Bool.eq_false_or_eq_true (fge (fdiv (fmul isc ksc) osc) fp1) with h | h
    · exact absurd h h5
    · exact h
  have hs1 := sign_false_of_valid_checks isc hn1 hf1
  have hs2 := sign_false_of_valid_checks ksc hn2 hf2
  have hs3 := sign_false_of_valid_checks osc hn3 hf3
  obtain ⟨hnan, h255, hge0, hlt⟩ :=
    fused_scale_facts isc ksc osc hn1 hs1 hn2 hs2 hn3 hs3 hge
  simp only [Option.elim, qnnp_compute_conv_quantization_params]
  refine ⟨hnan, ?_, ?_⟩
  · apply div_nonneg
    · exact_mod_cast hge0
    · positivity
  · rw [Fp32.toRat, div_lt_one (by positivity)]
    exact_mod_cast hlt

theorem fused_scale_in_unit_half_open_witness :
    (qnnp_create_fully_connected_nc_q8 ⟨true, 4, 8⟩ true true 3 5 0 fp1 128 fp1
      (fun _ => 7) (fun _ => 0) 0 ⟨false, 128, 0⟩ 0 255).status = QnnpStatus.success ∧
    (qnnp_create_fully_connected_nc_q8 ⟨true, 4, 8⟩ true true 3 5 0 fp1 128 fp1
      (fun _ => 7) (fun _ => 0) 0 ⟨false, 128, 0⟩ 0 255).fully_connected_out.elim False
      (fun o => o.conv_quantization_params.requantization_scale.isNaN = false ∧
        0 ≤ o.conv_quantization_params.requantization_scale.toRat ∧
        o.conv_quantization_params.requantization_scale.toRat < 1) :=
  ⟨by decide, fused_scale_in_unit_half_open ⟨true, 4, 8⟩ true true 3 5 0 fp1 128 fp1
    (fun _ => 7) (fun _ => 0) 0 ⟨false, 128, 0⟩ 0 255 (by decide)⟩
